import Mathlib

/-!
Verification development for the Indeed scraping pipeline
(src/jobspy/indeed/init module).

The Python module is shallowly embedded: JSON values are modelled by an
inductive type, Python dictionary access is modelled by functions into an
exception monad mirroring the Python exceptions (KeyError on bracket
access of a missing key, AttributeError on calling .get on a non-dict,
TypeError on bracket access of a non-dict, IndexError on out-of-range
list indexing), and the stateful seen-URL set is threaded explicitly as a
Finset of strings, so that the mutation survives an exception exactly as
it does in Python.

External collaborators that the spec excludes (markdown conversion, email
extraction, the job-type and compensation helpers, the remote heuristic)
are carried as opaque-to-the-model pure function fields of the
configuration record, as the spec directs; network responses are supplied
by environments (a function from request order to a parsed page response
for the GraphQL endpoint, and a per-URL pair of possible responses for
the company-name fallback).
-/

namespace JobspyIndeed

/-- A JSON value, as delivered by the provider API.  Numbers are modelled
as integers, which covers every field the module reads arithmetically
(the epoch-millisecond datePublished field). -/
inductive JVal where
  | null
  | bool (b : Bool)
  | num (n : Int)
  | str (s : String)
  | arr (xs : List JVal)
  | obj (kvs : List (String × JVal))

/-- Python exceptions that the embedded code can raise. -/
inductive PyErr where
  | keyError (k : String)
  | typeError
  | attributeError
  | indexError
deriving DecidableEq

/-- Lookup of a key in the association list backing a JSON object. -/
def jlookup (kvs : List (String × JVal)) (k : String) : Option JVal :=
  (kvs.find? (fun kv => kv.1 == k)).map (fun kv => kv.2)

/-- Python bracket access d[k]: KeyError when the key is missing,
TypeError when the value is not a dict. -/
def jget (v : JVal) (k : String) : Except PyErr JVal :=
  match v with
  | .obj kvs =>
    match jlookup kvs k with
    | some x => .ok x
    | none => .error (.keyError k)
  | _ => .error .typeError

/-- Python d.get(k, dflt): returns the default when the key is missing,
raises AttributeError when the receiver is not a dict (in particular when
it is None, as in None.get(k)). -/
def jgetD (v : JVal) (k : String) (dflt : JVal) : Except PyErr JVal :=
  match v with
  | .obj kvs => .ok ((jlookup kvs k).getD dflt)
  | _ => .error .attributeError

/-- Python indexing v[i] for a natural index: lists index positionally
(IndexError when out of range), dicts raise KeyError for an integer key,
everything else raises TypeError. -/
def jindex (v : JVal) (i : Nat) : Except PyErr JVal :=
  match v with
  | .arr xs =>
    match xs[i]? with
    | some x => .ok x
    | none => .error .indexError
  | .obj _ => .error (.keyError (toString i))
  | _ => .error .typeError

/-- Python truthiness of a JSON value: None, False, 0, the empty string
and empty containers are falsy. -/
def truthy : JVal → Bool
  | .null => false
  | .bool b => b
  | .num n => n != 0
  | .str s => !s.isEmpty
  | .arr xs => !xs.isEmpty
  | .obj kvs => !kvs.isEmpty

mutual

/-- Python str() of a JSON value, as used by f-string interpolation.
Container rendering elides the quoting and escaping of the Python repr
of nested strings; no claim depends on container rendering. -/
def pyStr : JVal → String
  | .null => "None"
  | .bool true => "True"
  | .bool false => "False"
  | .num n => toString n
  | .str s => s
  | .arr xs => "[" ++ String.intercalate ", " (pyStrList xs) ++ "]"
  | .obj kvs => "\x7b" ++ String.intercalate ", " (pyStrObj kvs) ++ "\x7d"

def pyStrList : List JVal → List String
  | [] => []
  | x :: xs => pyStr x :: pyStrList xs

def pyStrObj : List (String × JVal) → List String
  | [] => []
  | (k, v) :: kvs => (k ++ ": " ++ pyStr v) :: pyStrObj kvs

end

/-- The four job-type values that the filter-key mapping of the module
covers (the full upstream enum is outside src). -/
inductive JobType where
  | full_time
  | part_time
  | contract
  | internship
deriving DecidableEq

/-- Description output format requested by the caller. -/
inductive DescriptionFormat where
  | markdown
  | html
deriving DecidableEq

/-- SearchCriteria: the scraper input fields the module reads.  The
hours-old filter is an optional integer, matching the Python int-or-None
field, so that Python truthiness (zero is falsy) is representable. -/
structure ScraperInput where
  search_term : Option String
  location : Option String
  distance : Nat
  hours_old : Option Int
  job_type : Option JobType
  is_remote : Bool
  easy_apply : Bool
  results_wanted : Nat
  offset : Nat
  description_format : DescriptionFormat

/-- Location component of the canonical posting (raw JSON values are
kept, since the module passes them through unconverted). -/
structure PostLocation where
  city : JVal
  state : JVal
  country : JVal

/-- CanonicalPosting: the JobPost structure, one field per keyword
argument of the JobPost construction in the source. -/
structure JobPost where
  id : String
  title : JVal
  description : JVal
  company_name : JVal
  company_url : Option String
  company_url_direct : JVal
  location : PostLocation
  job_type : JVal
  compensation : JVal
  date_posted : String
  job_url : String
  job_url_direct : JVal
  emails : JVal
  is_remote : Bool
  company_addresses : JVal
  company_industry : JVal
  company_num_employees : JVal
  company_revenue : JVal
  company_description : JVal
  company_logo : JVal

/-! ### Date derivation (source lines 269 and 270)

datetime.fromtimestamp converts epoch seconds to the civil date of the
local timezone; strftime with the Y-m-d pattern renders it zero padded.
The local timezone is modelled as an offset in seconds east of UTC,
carried in the configuration.  The civil-from-days computation is the
standard proleptic Gregorian algorithm. -/

/-- Day number (days since the Unix epoch, floored) of an epoch given in
milliseconds, shifted by a timezone offset in seconds. -/
def daysFromMillis (tzOffset ms : Int) : Int :=
  (ms + tzOffset * 1000).fdiv 86400000

/-- Civil (year, month, day) from a day number since the Unix epoch,
proleptic Gregorian calendar. -/
def civilFromDays (z0 : Int) : Int × Nat × Nat :=
  let z := z0 + 719468
  let era := z.fdiv 146097
  let doe : Nat := (z - era * 146097).toNat
  let yoe : Nat := (doe - doe / 1460 + doe / 36524 - doe / 146096) / 365
  let y : Int := (yoe : Int) + era * 400
  let doy : Nat := doe - (365 * yoe + yoe / 4 - yoe / 100)
  let mp := (5 * doy + 2) / 153
  let d := doy - (153 * mp + 2) / 5 + 1
  let m := if mp < 10 then mp + 3 else mp - 9
  (y + (if m ≤ 2 then 1 else 0), m, d)

/-- Zero-pad a natural number to two digits. -/
def pad2 (n : Nat) : String :=
  if n < 10 then "0" ++ toString n else toString n

/-- Zero-pad a year to four digits (as strftime renders the year). -/
def pad4 (y : Int) : String :=
  if 0 ≤ y ∧ y < 10 then "000" ++ toString y
  else if 0 ≤ y ∧ y < 100 then "00" ++ toString y
  else if 0 ≤ y ∧ y < 1000 then "0" ++ toString y
  else toString y

/-- Render a civil date in the strftime Y-m-d format. -/
def dateString (y : Int) (m d : Nat) : String :=
  pad4 y ++ "-" ++ pad2 m ++ "-" ++ pad2 d

/-- The date string datetime.fromtimestamp(ms / 1000).strftime of the
Y-m-d pattern produces, for a local timezone offset in seconds. -/
def fromtimestampDate (tzOffset ms : Int) : String :=
  let c := civilFromDays (daysFromMillis tzOffset ms)
  dateString c.1 c.2.1 c.2.2

/-- Source lines 269 and 270: read the datePublished field (bracket
access), divide by 1000 and render the local civil date.  A non-numeric
value raises TypeError at the division, except Python booleans, which
divide as integers. -/
def datePostedOf (tzOffset : Int) (j : JVal) : Except PyErr String := do
  let dp ← jget j "datePublished"
  match dp with
  | .num ms => .ok (fromtimestampDate tzOffset ms)
  | .bool b => .ok (fromtimestampDate tzOffset (if b then 1 else 0))
  | _ => .error .typeError

/-! ### Sessions, proxies and outbound requests -/

/-- The proxies constructor argument (a string, a list or absent). -/
inductive ProxiesArg where
  | noProxies
  | strProxy (p : String)
  | listProxy (ps : List String)

/-- Source lines 51 to 57: the fallback proxy mapping is derived once at
construction from the first configured proxy entry; an empty string or
empty list is falsy and leaves it unset.  The http and https entries of
the resulting dict are the same string, so a single optional string
models it. -/
def fallbackProxiesOf : ProxiesArg → Option String
  | .noProxies => none
  | .strProxy p => if p.isEmpty then none else some p
  | .listProxy [] => none
  | .listProxy (p :: _) => some p

/-- The value passed as the verify argument of the proxied fallback
request. -/
inductive VerifyArg where
  | off
  | bundle (path : String)
deriving DecidableEq

/-- Source line 52: ca_cert if ca_cert else False (an absent or empty
certificate path disables verification). -/
def verifyArgOf (caCert : Option String) : VerifyArg :=
  match caCert with
  | some c => if c.isEmpty then .off else .bundle c
  | none => .off

/-- Which channel an outbound request goes through. -/
inductive Tier where
  | api
  | browserTLS
  | proxied
deriving DecidableEq

/-- An outbound HTTP request as built at its call site.  The timeout and
verify fields record the arguments the call site passes; none means the
call site passes no such argument. -/
structure Request where
  tier : Tier
  url : String
  timeout : Option Nat
  verifyArg : Option VerifyArg
  proxies : Option String
deriving DecidableEq

/-- An HTTP response.  The ldName field abstracts the JSON-LD parsing of
the body (the regex scan for script blocks of type application/ld+json
and the hiringOrganization name lookup): it is the name that scan would
deliver, if any. -/
structure Resp where
  status : Nat
  ldName : Option String
deriving DecidableEq

/-- The ok property of the requests library: status below 400. -/
def Resp.ok (r : Resp) : Bool := r.status < 400

/-- The two possible responses of the outside world for one fallback
lookup URL: the browser-TLS attempt and the proxied attempt.  A value of
none models the request raising a transport-level exception. -/
structure FetchOutcome where
  tls : Option Resp
  proxied : Option Resp

/-- Scraper configuration: the fields the constructor and scrape set up,
the local timezone, the external pure helpers the spec excludes, and the
per-URL outside world of the fallback fetch. -/
structure Cfg where
  baseUrl : String
  apiUrl : String
  tzOffset : Int
  caCert : Option String
  fallbackProxies : Option String
  markdownConverter : JVal → JVal
  extractEmails : JVal → JVal
  getJobType : JVal → JVal
  getCompensation : JVal → JVal
  isJobRemote : JVal → JVal → Bool
  fetchWorld : String → FetchOutcome

/-- Source lines 130 to 136: the GraphQL POST, with timeout 10 and
verification disabled. -/
def graphqlRequest (cfg : Cfg) : Request :=
  { tier := .api, url := cfg.apiUrl, timeout := some 10,
    verifyArg := some .off, proxies := none }

/-- Source line 225: the browser-TLS fallback GET; the call site passes
no timeout and no verify argument. -/
def tierBRequest (url : String) : Request :=
  { tier := .browserTLS, url := url, timeout := none,
    verifyArg := none, proxies := none }

/-- Source lines 229 to 232: the proxied fallback GET with timeout 10
and the configured certificate-verification value. -/
def tierCRequest (cfg : Cfg) (url : String) : Request :=
  { tier := .proxied, url := url, timeout := some 10,
    verifyArg := some (verifyArgOf cfg.caCert), proxies := cfg.fallbackProxies }

/-- Source lines 212 to 252, the company-name fallback: try the
browser-TLS GET; only when it returns (rather than raises) a non-ok
response and a fallback proxy is configured, retry once through the
proxy; a raise anywhere is swallowed by the enclosing try and yields
None.  The returned list is the trace of outbound requests made. -/
def fetchCompanyName (cfg : Cfg) (url : String) : List Request × Option String :=
  let w := cfg.fetchWorld url
  match w.tls with
  | none => ([tierBRequest url], none)
  | some r =>
    if r.ok then ([tierBRequest url], r.ldName)
    else
      match cfg.fallbackProxies with
      | some _ =>
        match w.proxied with
        | none => ([tierBRequest url, tierCRequest cfg url], none)
        | some r2 =>
          if r2.ok then ([tierBRequest url, tierCRequest cfg url], r2.ldName)
          else ([tierBRequest url, tierCRequest cfg url], none)
      | none => ([tierBRequest url], none)

/-! ### Filter Builder (source lines 154 to 210)

The three filter fragments are reproduced verbatim from the
triple-quoted template strings of the source, with the interpolated hole
split out. -/

/-- Date-window fragment up to the interpolated hours value. -/
def dateFilterPre : String :=
  "\n            filters: \x7b\n                date: \x7b\n                  field: \"dateOnIndeed\",\n                  start: \""

/-- Date-window fragment after the interpolated hours value. -/
def dateFilterPost : String :=
  "h\"\n                \x7d\n            \x7d\n            "

/-- The date-window filter fragment for a given hours-old value. -/
def dateFilterStr (hours : Int) : String :=
  dateFilterPre ++ toString hours ++ dateFilterPost

/-- The easy-apply (indeedApplyScope) filter fragment. -/
def easyApplyFilterStr : String :=
  "\n            filters: \x7b\n                keyword: \x7b\n                  field: \"indeedApplyScope\",\n                  keys: [\"DESKTOP\"]\n                \x7d\n            \x7d\n            "

/-- Composite job-type and remote fragment up to the interpolated keys. -/
def compositeFilterPre : String :=
  "\n                filters: \x7b\n                  composite: \x7b\n                    filters: [\x7b\n                      keyword: \x7b\n                        field: \"attributes\",\n                        keys: [\""

/-- Composite job-type and remote fragment after the interpolated keys. -/
def compositeFilterPost : String :=
  "\"]\n                      \x7d\n                    \x7d]\n                  \x7d\n                \x7d\n                "

/-- The composite filter fragment for an interpolated joined key list. -/
def compositeFilterStr (keysStr : String) : String :=
  compositeFilterPre ++ keysStr ++ compositeFilterPost

/-- Python truthiness of the optional integer hours-old field: unset or
zero is falsy. -/
def truthyIntOpt : Option Int → Bool
  | some n => n != 0
  | none => false

/-- The static job-type to provider-code table of source lines 181
to 186. -/
def jobTypeKey : JobType → String
  | .full_time => "CF3CP"
  | .part_time => "75GKK"
  | .contract => "NJXCK"
  | .internship => "VDTG7"

/-- Source lines 154 to 210: the filter fragment builder, with the
source precedence: a truthy hours-old wins, else the easy-apply flag,
else the job-type or remote composite, else no filter. -/
def buildFilters (sc : ScraperInput) : String :=
  if truthyIntOpt sc.hours_old then
    dateFilterStr (sc.hours_old.getD 0)
  else if sc.easy_apply then
    easyApplyFilterStr
  else if sc.job_type.isSome || sc.is_remote then
    let keys :=
      (match sc.job_type with
       | some t => [jobTypeKey t]
       | none => []) ++ (if sc.is_remote then ["DSQF7"] else [])
    if keys.isEmpty then "" else compositeFilterStr (String.intercalate "\", \"" keys)
  else ""

/-! ### Job Normalizer (source lines 254 to 322) -/

/-- Helper of the Python str.title method: uppercase a letter that
follows a non-letter, lowercase the rest. -/
def pyTitleAux : Bool → List Char → List Char
  | _, [] => []
  | prevAlpha, c :: cs =>
    (if prevAlpha then c.toLower else c.toUpper) :: pyTitleAux c.isAlpha cs

/-- Python str.title. -/
def pyTitle (s : String) : String := ⟨pyTitleAux false s.data⟩

/-- Canonical job URL of source line 260, built from the base URL and
the f-string rendering of the raw key field. -/
def mkJobUrl (cfg : Cfg) (kv : JVal) : String :=
  cfg.baseUrl ++ "/viewjob?jk=" ++ pyStr kv

/-- The values the normalizer computes before constructing the posting,
one field per local or keyword argument of the source, in evaluation
order. -/
structure Parts where
  description : JVal
  job_type : JVal
  date_posted : String
  employer : JVal
  employer_details : JVal
  rel_url : JVal
  company_name : JVal
  title : JVal
  company_url : Option String
  company_url_direct : JVal
  loc_city : JVal
  loc_state : JVal
  loc_country : JVal
  compensation : JVal
  job_url_direct : JVal
  emails : JVal
  is_remote : Bool
  company_addresses : JVal
  company_industry : JVal
  company_num_employees : JVal
  company_revenue : JVal
  company_description : JVal
  company_logo : JVal

/-- Source lines 264 to 321: every fallible read the normalizer performs
after the deduplication gate, in the evaluation order of the Python code
(locals first, then the JobPost keyword arguments in textual order), so
that the first Python exception is the error produced here. -/
def processJobParts (cfg : Cfg) (sc : ScraperInput) (j : JVal) (url : String) :
    Except PyErr Parts := do
  -- line 264: description = job bracket description bracket html
  let d0 ← jget j "description"
  let d1 ← jget d0 "html"
  -- lines 265 and 266: optional markdown conversion
  let description :=
    if sc.description_format = DescriptionFormat.markdown then cfg.markdownConverter d1 else d1
  -- line 268: job_type from the attributes field (bracket access)
  let attrs ← jget j "attributes"
  let jobTypeVal := cfg.getJobType attrs
  -- lines 269 and 270: datePublished to local civil date
  let date_posted ← datePostedOf cfg.tzOffset j
  -- line 271: employer dossier; the bracket access raises KeyError when
  -- the employer key is absent, the conditional sends null to null
  let empRaw ← jget j "employer"
  let employer ←
    if truthy empRaw then do
      let e ← jget j "employer"
      jgetD e "dossier" JVal.null
    else pure JVal.null
  -- line 272: employerDetails with empty-dict default
  let employer_details ←
    if truthy employer then jgetD employer "employerDetails" (JVal.obj [])
    else pure (JVal.obj [])
  -- line 273: relativeCompanyPageUrl (bracket access on the employer)
  let rel_url ←
    if truthy empRaw then do
      let e ← jget j "employer"
      jget e "relativeCompanyPageUrl"
    else pure JVal.null
  -- line 274: company name from the employer object
  let empOpt ← jgetD j "employer" JVal.null
  let companyName0 ←
    if truthy empOpt then do
      let e ← jget j "employer"
      jgetD e "name" JVal.null
    else pure JVal.null
  -- lines 275 and 276: fallback fetch when the name is falsy
  let company_name :=
    if truthy companyName0 then companyName0
    else
      match (fetchCompanyName cfg url).2 with
      | some s => JVal.str s
      | none => JVal.null
  -- line 279: title (bracket access), first fallible keyword argument
  let title ← jget j "title"
  -- line 282: company_url, an f-string over the raw relative URL
  let company_url :=
    if truthy empRaw then some (cfg.baseUrl ++ pyStr rel_url) else none
  -- lines 283 to 285: corporateWebsite (bracket accesses on the dossier)
  let company_url_direct ←
    if truthy employer then do
      let l ← jget employer "links"
      jget l "corporateWebsite"
    else pure JVal.null
  -- lines 286 to 290: location fields; the one-level get with an
  -- empty-dict default tolerates an absent location key but hands a
  -- null location value straight to the second get
  let loc1 ← jgetD j "location" (JVal.obj [])
  let loc_city ← jgetD loc1 "city" JVal.null
  let loc2 ← jgetD j "location" (JVal.obj [])
  let loc_state ← jgetD loc2 "admin1Code" JVal.null
  let loc3 ← jgetD j "location" (JVal.obj [])
  let loc_country ← jgetD loc3 "countryCode" JVal.null
  -- line 292: compensation (bracket access), handed to the helper
  let compRaw ← jget j "compensation"
  let compensation := cfg.getCompensation compRaw
  -- lines 295 to 297: recruit viewJobUrl
  let recruitOpt ← jgetD j "recruit" JVal.null
  let job_url_direct ←
    if truthy recruitOpt then do
      let rc ← jget j "recruit"
      jgetD rc "viewJobUrl" JVal.null
    else pure JVal.null
  -- line 298: emails from the rendered description when truthy
  let emails :=
    if truthy description then cfg.extractEmails description else JVal.null
  -- line 299: remote heuristic
  let is_remote := cfg.isJobRemote j description
  -- lines 300 to 304: first address when the addresses entry is truthy
  let addrOpt ← jgetD employer_details "addresses" JVal.null
  let company_addresses ←
    if truthy addrOpt then do
      let a ← jget employer_details "addresses"
      jindex a 0
    else pure JVal.null
  -- lines 305 to 313: industry label cleanup (strip the provider
  -- artifact token, underscores to spaces, title case, trim)
  let indOpt ← jgetD employer_details "industry" JVal.null
  let company_industry ←
    if truthy indOpt then do
      let iv ← jget employer_details "industry"
      match iv with
      | .str s => pure (JVal.str (pyTitle ((s.replace "Iv1" "").replace "_" " ")).trim)
      | _ => Except.error PyErr.attributeError
    else pure JVal.null
  -- lines 314 to 316: optional company labels
  let company_num_employees ← jgetD employer_details "employeesLocalizedLabel" JVal.null
  let company_revenue ← jgetD employer_details "revenueLocalizedLabel" JVal.null
  let company_description ← jgetD employer_details "briefDescription" JVal.null
  -- lines 317 to 321: square logo when the images entry is truthy
  let imgOpt ← if truthy employer then jgetD employer "images" JVal.null else pure JVal.null
  let company_logo ←
    if truthy employer then
      if truthy imgOpt then do
        let im ← jget employer "images"
        jgetD im "squareLogoUrl" JVal.null
      else pure JVal.null
    else pure JVal.null
  pure
    { description := description, job_type := jobTypeVal, date_posted := date_posted,
      employer := employer, employer_details := employer_details, rel_url := rel_url,
      company_name := company_name, title := title, company_url := company_url,
      company_url_direct := company_url_direct, loc_city := loc_city,
      loc_state := loc_state, loc_country := loc_country, compensation := compensation,
      job_url_direct := job_url_direct, emails := emails, is_remote := is_remote,
      company_addresses := company_addresses, company_industry := company_industry,
      company_num_employees := company_num_employees, company_revenue := company_revenue,
      company_description := company_description, company_logo := company_logo }

/-- Assemble the JobPost of source lines 277 to 322 from the computed
parts, the raw key and the canonical URL. -/
def mkPost (kv : JVal) (url : String) (p : Parts) : JobPost :=
  { id := "in-" ++ pyStr kv, title := p.title, description := p.description,
    company_name := p.company_name, company_url := p.company_url,
    company_url_direct := p.company_url_direct,
    location := { city := p.loc_city, state := p.loc_state, country := p.loc_country },
    job_type := p.job_type, compensation := p.compensation,
    date_posted := p.date_posted, job_url := url,
    job_url_direct := p.job_url_direct, emails := p.emails,
    is_remote := p.is_remote, company_addresses := p.company_addresses,
    company_industry := p.company_industry,
    company_num_employees := p.company_num_employees,
    company_revenue := p.company_revenue,
    company_description := p.company_description,
    company_logo := p.company_logo }

/-- Source lines 254 to 322, the per-record normalizer: compute the
canonical URL from the key field, skip when already seen, otherwise add
the URL to the seen set and normalize.  The seen set is returned in
every outcome, including the error outcome, because the Python set
mutation survives a later exception. -/
def processJob (cfg : Cfg) (sc : ScraperInput) (seen : Finset String) (j : JVal) :
    Finset String × Except PyErr (Option JobPost) :=
  match jget j "key" with
  | .error e => (seen, .error e)
  | .ok kv =>
    let url := mkJobUrl cfg kv
    if url ∈ seen then (seen, .ok none)
    else
      (insert url seen,
       (processJobParts cfg sc j url).map (fun p => some (mkPost kv url p)))

/-! ### Page Retriever and Pagination Controller (source lines 67 to 152) -/

/-- The parsed content of one GraphQL response: the HTTP status, the
data.jobSearch.results array and the pageInfo.nextCursor value.  The
JSON body navigation itself is abstracted; each element of the results
array is still an arbitrary JSON value, so record-level malformation is
fully modelled. -/
structure PageHttp where
  status : Nat
  results : List JVal
  nextCursor : Option String

/-- Source lines 146 to 151: map each result element through the
normalizer (bracket access to its job entry first), appending the truthy
outcomes in arrival order; the seen set is threaded through and survives
an error. -/
def processResults (cfg : Cfg) (sc : ScraperInput) :
    List JVal → Finset String → Finset String × Except PyErr (List JobPost)
  | [], seen => (seen, .ok [])
  | e :: rest, seen =>
    match jget e "job" with
    | .error err => (seen, .error err)
    | .ok j =>
      match processJob cfg sc seen j with
      | (seen1, .error err) => (seen1, .error err)
      | (seen1, .ok post?) =>
        match processResults cfg sc rest seen1 with
        | (seen2, .error err) => (seen2, .error err)
        | (seen2, .ok tail) =>
          (seen2, .ok (match post? with | some p => p :: tail | none => tail))

/-- Source lines 100 to 152, one page: issue the GraphQL POST; on a
non-ok response (status 400 and above) return the empty job list and a
None cursor without raising; on an ok response process the results and
return the next cursor.  The request made is returned alongside.  The
cursor parameter only feeds the query document, which the claims do not
inspect. -/
def scrapePage (cfg : Cfg) (sc : ScraperInput) (page : PageHttp)
    (_cursor : Option String) (seen : Finset String) :
    Request × Finset String × Except PyErr (List JobPost × Option String) :=
  let req := graphqlRequest cfg
  if page.status < 400 then
    match processResults cfg sc page.results seen with
    | (seen1, .error e) => (req, seen1, .error e)
    | (seen1, .ok jobs) => (req, seen1, .ok (jobs, page.nextCursor))
  else (req, seen, .ok ([], none))

/-- Source lines 78 to 92, the pagination loop: continue while the seen
count is below results_wanted plus offset; stop on the first page whose
processed job list is empty, whatever the returned cursor; accumulate
pages in arrival order.  The environment maps the request ordinal to the
page response.  Fuel bounds the recursion; the fuel congruence lemma
below shows any fuel above the loop target gives the same result, so the
choice made in scrapeAccum is faithful to the unbounded while loop. -/
def scrapeLoop (cfg : Cfg) (sc : ScraperInput) (env : Nat → PageHttp) :
    Nat → Nat → Option String → Finset String → List JobPost →
    Finset String × Except PyErr (List JobPost)
  | 0, _page, _cursor, seen, acc => (seen, .ok acc)
  | fuel + 1, page, cursor, seen, acc =>
    if seen.card < sc.results_wanted + sc.offset then
      match scrapePage cfg sc (env page) cursor seen with
      | (_req, seen1, .error e) => (seen1, .error e)
      | (_req, seen1, .ok (jobs, newCursor)) =>
        if jobs.isEmpty then (seen1, .ok acc)
        else scrapeLoop cfg sc env fuel (page + 1) newCursor seen1 (acc ++ jobs)
    else (seen, .ok acc)

/-- The accumulated postings of one scrape session, before slicing. -/
def scrapeAccum (cfg : Cfg) (sc : ScraperInput) (env : Nat → PageHttp)
    (seen : Finset String) : Finset String × Except PyErr (List JobPost) :=
  scrapeLoop cfg sc env (sc.results_wanted + sc.offset + 1) 1 none seen []

/-- Source lines 67 to 98: run the pagination loop from the given seen
set (the instance state at entry) and slice the accumulated list to the
offset window, as the Python slice job_list from offset to offset plus
results_wanted does. -/
def scrape (cfg : Cfg) (sc : ScraperInput) (env : Nat → PageHttp)
    (seen : Finset String) : Finset String × Except PyErr (List JobPost) :=
  let r := scrapeAccum cfg sc env seen
  (r.1, r.2.map (fun acc => (acc.drop sc.offset).take sc.results_wanted))

/-- Source line 61: the seen-URL set starts empty when the scraper
object is constructed (and, notably, nowhere else). -/
def initSeenUrls : Finset String := ∅

/-! ### Helper lemmas about the normalizer and the loop -/

/-- Distinct canonical URLs, the session uniqueness relation. -/
def urlNe (a b : JobPost) : Prop := a.job_url ≠ b.job_url

lemma processJob_subset (cfg : Cfg) (sc : ScraperInput) (seen : Finset String) (j : JVal) :
    seen ⊆ (processJob cfg sc seen j).1 := by
  unfold processJob
  cases hk : jget j "key" with
  | error e => simp
  | ok kv =>
    simp only
    by_cases hm : mkJobUrl cfg kv ∈ seen
    · simp [hm]
    · simp [hm, Finset.subset_insert]

lemma processJob_fst_new (cfg : Cfg) (sc : ScraperInput) (seen : Finset String) (j : JVal)
    (kv : JVal) (hk : jget j "key" = .ok kv) (hni : mkJobUrl cfg kv ∉ seen) :
    (processJob cfg sc seen j).1 = insert (mkJobUrl cfg kv) seen := by
  unfold processJob
  simp [hk, hni]

lemma processJob_seen_mem (cfg : Cfg) (sc : ScraperInput) (seen : Finset String) (j : JVal)
    (kv : JVal) (hk : jget j "key" = .ok kv) (hm : mkJobUrl cfg kv ∈ seen) :
    processJob cfg sc seen j = (seen, .ok none) := by
  unfold processJob
  simp only [hk]
  simp [hm]

lemma processJob_ok_none (cfg : Cfg) (sc : ScraperInput) (seen seen1 : Finset String)
    (j : JVal) (h : processJob cfg sc seen j = (seen1, .ok none)) : seen1 = seen := by
  unfold processJob at h
  cases hk : jget j "key" with
  | error e => simp [hk] at h
  | ok kv =>
    simp only [hk] at h
    by_cases hm : mkJobUrl cfg kv ∈ seen
    · simp [hm] at h
      exact h.symm
    · simp only [hm, ite_false, if_neg, not_false_iff] at h
      exfalso
      cases hp : processJobParts cfg sc j (mkJobUrl cfg kv) with
      | error e2 => simp [hp, Except.map] at h
      | ok parts => simp [hp, Except.map] at h

lemma processJob_ok_some (cfg : Cfg) (sc : ScraperInput) (seen seen1 : Finset String)
    (j : JVal) (p : JobPost) (h : processJob cfg sc seen j = (seen1, .ok (some p))) :
    ∃ kv, jget j "key" = .ok kv ∧ p.job_url = mkJobUrl cfg kv ∧
      mkJobUrl cfg kv ∉ seen ∧ seen1 = insert (mkJobUrl cfg kv) seen := by
  unfold processJob at h
  cases hk : jget j "key" with
  | error e => simp [hk] at h
  | ok kv =>
    simp only [hk] at h
    by_cases hm : mkJobUrl cfg kv ∈ seen
    · simp [hm] at h
    · simp only [hm, ite_false, if_neg, not_false_iff] at h
      refine ⟨kv, rfl, ?_, hm, ?_⟩
      · cases hp : processJobParts cfg sc j (mkJobUrl cfg kv) with
        | error e2 => simp [hp, Except.map] at h
        | ok parts =>
          simp only [hp, Except.map, Prod.mk.injEq, Except.ok.injEq,
            Option.some.injEq] at h
          rw [← h.2]
          rfl
      · cases hp : processJobParts cfg sc j (mkJobUrl cfg kv) with
        | error e2 => simp [hp, Except.map] at h
        | ok parts =>
          simp only [hp, Except.map, Prod.mk.injEq, Except.ok.injEq,
            Option.some.injEq] at h
          exact h.1.symm

lemma processResults_inv (cfg : Cfg) (sc : ScraperInput) :
    ∀ (rs : List JVal) (seen seen1 : Finset String) (res : Except PyErr (List JobPost)),
      processResults cfg sc rs seen = (seen1, res) →
      seen ⊆ seen1 ∧
      ∀ jobs, res = .ok jobs →
        (∀ p ∈ jobs, p.job_url ∈ seen1 ∧ p.job_url ∉ seen) ∧
        List.Pairwise urlNe jobs ∧
        seen.card + jobs.length ≤ seen1.card := by
  intro rs
  induction rs with
  | nil =>
    intro seen seen1 res h
    unfold processResults at h
    injection h with h1 h2
    subst h1
    refine ⟨Finset.Subset.refl _, ?_⟩
    intro jobs hj
    rw [← h2] at hj
    injection hj with hj1
    subst hj1
    exact ⟨by simp, List.Pairwise.nil, by simp⟩
  | cons e rest ih =>
    intro seen seen1 res h
    unfold processResults at h
    split at h
    next err heq =>
      injection h with h1 h2
      subst h1
      refine ⟨Finset.Subset.refl _, ?_⟩
      intro jobs hj
      rw [← h2] at hj
      exact absurd hj (by simp)
    next j heq =>
      split at h
      next seenMid err heq2 =>
        injection h with h1 h2
        subst h1
        have hsub : seen ⊆ seenMid := by
          have hs := processJob_subset cfg sc seen j
          rw [heq2] at hs
          exact hs
        refine ⟨hsub, ?_⟩
        intro jobs hj
        rw [← h2] at hj
        exact absurd hj (by simp)
      next seenMid post? heq2 =>
        have hsub1 : seen ⊆ seenMid := by
          have hs := processJob_subset cfg sc seen j
          rw [heq2] at hs
          exact hs
        split at h
        next seen2 err heq3 =>
          injection h with h1 h2
          subst h1
          refine ⟨hsub1.trans (ih seenMid seen2 _ heq3).1, ?_⟩
          intro jobs hj
          rw [← h2] at hj
          exact absurd hj (by simp)
        next seen2 tail heq3 =>
          injection h with h1 h2
          subst h1
          obtain ⟨hsub2, htail⟩ := ih seenMid seen2 _ heq3
          obtain ⟨htmem, htpair, htcard⟩ := htail tail rfl
          refine ⟨hsub1.trans hsub2, ?_⟩
          intro jobs hj
          rw [← h2] at hj
          injection hj with hj1
          subst hj1
          cases post? with
          | none =>
            have hmid : seenMid = seen := processJob_ok_none cfg sc seen seenMid j heq2
            subst hmid
            exact ⟨htmem, htpair, htcard⟩
          | some p =>
            obtain ⟨kv, hkv, hpurl, hni, hmid⟩ :=
              processJob_ok_some cfg sc seen seenMid j p heq2
            show (∀ q ∈ p :: tail, q.job_url ∈ seen2 ∧ q.job_url ∉ seen) ∧
              List.Pairwise urlNe (p :: tail) ∧
              seen.card + (p :: tail).length ≤ seen2.card
            have hpmem2 : p.job_url ∈ seen2 := by
              apply hsub2
              rw [hmid, hpurl]
              exact Finset.mem_insert_self _ _
            refine ⟨?_, ?_, ?_⟩
            · intro q hq
              cases hq with
              | head => exact ⟨hpmem2, hpurl ▸ hni⟩
              | tail _ hq' =>
                obtain ⟨hq1, hq2⟩ := htmem q hq'
                exact ⟨hq1, fun hmem => hq2 (hsub1 hmem)⟩
            · refine List.Pairwise.cons ?_ htpair
              intro q hq heqUrl
              obtain ⟨_, hq2⟩ := htmem q hq
              apply hq2
              rw [hmid, ← heqUrl, hpurl]
              exact Finset.mem_insert_self _ _
            · have hcardMid : seenMid.card = seen.card + 1 := by
                rw [hmid]
                exact Finset.card_insert_of_not_mem hni
              have : seenMid.card + tail.length ≤ seen2.card := htcard
              simp only [List.length_cons]
              omega

lemma scrapePage_fail (cfg : Cfg) (sc : ScraperInput) (page : PageHttp)
    (cursor : Option String) (seen : Finset String) (h : 400 ≤ page.status) :
    scrapePage cfg sc page cursor seen = (graphqlRequest cfg, seen, .ok ([], none)) := by
  unfold scrapePage
  simp [Nat.not_lt.mpr h]

lemma scrapePage_inv (cfg : Cfg) (sc : ScraperInput) (page : PageHttp)
    (cursor : Option String) (seen : Finset String) :
    ∀ (req : Request) (seen1 : Finset String)
      (res : Except PyErr (List JobPost × Option String)),
      scrapePage cfg sc page cursor seen = (req, seen1, res) →
      seen ⊆ seen1 ∧
      ∀ jobs c, res = .ok (jobs, c) →
        (∀ p ∈ jobs, p.job_url ∈ seen1 ∧ p.job_url ∉ seen) ∧
        List.Pairwise urlNe jobs ∧
        seen.card + jobs.length ≤ seen1.card := by
  intro req seen1 res h
  unfold scrapePage at h
  split at h
  · split at h
    next seenA e heqA =>
      injection h with h1 h2
      injection h2 with h2 h3
      subst h2
      obtain ⟨hsub, _⟩ := processResults_inv cfg sc page.results seen seenA _ heqA
      refine ⟨hsub, ?_⟩
      intro jobs c hj
      rw [← h3] at hj
      exact absurd hj (by simp)
    next seenA jobsA heqA =>
      injection h with h1 h2
      injection h2 with h2 h3
      subst h2
      obtain ⟨hsub, hinv⟩ := processResults_inv cfg sc page.results seen seenA _ heqA
      refine ⟨hsub, ?_⟩
      intro jobs c hj
      rw [← h3] at hj
      injection hj with hj1
      injection hj1 with hj2 hj3
      subst hj2
      exact hinv _ rfl
  · injection h with h1 h2
    injection h2 with h2 h3
    subst h2
    refine ⟨Finset.Subset.refl _, ?_⟩
    intro jobs c hj
    rw [← h3] at hj
    injection hj with hj1
    injection hj1 with hj2 hj3
    subst hj2
    exact ⟨by simp, List.Pairwise.nil, by simp⟩

lemma scrapeLoop_inv (cfg : Cfg) (sc : ScraperInput) (env : Nat → PageHttp) :
    ∀ (fuel page : Nat) (cursor : Option String) (seen : Finset String)
      (acc : List JobPost) (seen1 : Finset String) (res : Except PyErr (List JobPost)),
      scrapeLoop cfg sc env fuel page cursor seen acc = (seen1, res) →
      seen ⊆ seen1 ∧
      ∀ out, res = .ok out →
        (∀ p ∈ acc, p.job_url ∈ seen) → List.Pairwise urlNe acc →
        (∀ p ∈ out, p.job_url ∈ seen1) ∧ List.Pairwise urlNe out := by
  intro fuel
  induction fuel with
  | zero =>
    intro page cursor seen acc seen1 res h
    unfold scrapeLoop at h
    injection h with h1 h2
    subst h1
    refine ⟨Finset.Subset.refl _, ?_⟩
    intro out hout hmem hpair
    rw [← h2] at hout
    injection hout with hout1
    subst hout1
    exact ⟨hmem, hpair⟩
  | succ fuel ih =>
    intro page cursor seen acc seen1 res h
    unfold scrapeLoop at h
    split at h
    · split at h
      next seenA e heqA =>
        injection h with h1 h2
        subst h1
        obtain ⟨hsub, _⟩ := scrapePage_inv cfg sc (env page) cursor seen _ _ _ heqA
        refine ⟨hsub, ?_⟩
        intro out hout
        rw [← h2] at hout
        exact absurd hout (by simp)
      next seenA jobs newCursor heqA =>
        obtain ⟨hsub, hpage⟩ := scrapePage_inv cfg sc (env page) cursor seen _ _ _ heqA
        obtain ⟨hjmem, hjpair, hjcard⟩ := hpage jobs newCursor rfl
        split at h
        · injection h with h1 h2
          subst h1
          refine ⟨hsub, ?_⟩
          intro out hout hmem hpair
          rw [← h2] at hout
          injection hout with hout1
          subst hout1
          exact ⟨fun p hp => hsub (hmem p hp), hpair⟩
        · obtain ⟨hsub2, hrest⟩ := ih _ _ _ _ _ _ h
          refine ⟨hsub.trans hsub2, ?_⟩
          intro out hout hmem hpair
          refine hrest out hout ?_ ?_
          · intro p hp
            rcases List.mem_append.mp hp with hpacc | hpjobs
            · exact hsub (hmem p hpacc)
            · exact (hjmem p hpjobs).1
          · rw [List.pairwise_append]
            refine ⟨hpair, hjpair, ?_⟩
            intro a ha b hb heqUrl
            exact (hjmem b hb).2 (heqUrl ▸ hmem a ha)
    · injection h with h1 h2
      subst h1
      refine ⟨Finset.Subset.refl _, ?_⟩
      intro out hout hmem hpair
      rw [← h2] at hout
      injection hout with hout1
      subst hout1
      exact ⟨hmem, hpair⟩

lemma scrapeLoop_fuel_congr (cfg : Cfg) (sc : ScraperInput) (env : Nat → PageHttp) :
    ∀ (f1 f2 page : Nat) (cursor : Option String) (seen : Finset String)
      (acc : List JobPost),
      sc.results_wanted + sc.offset < seen.card + f1 →
      sc.results_wanted + sc.offset < seen.card + f2 →
      scrapeLoop cfg sc env f1 page cursor seen acc =
        scrapeLoop cfg sc env f2 page cursor seen acc := by
  intro f1
  induction f1 with
  | zero =>
    intro f2 page cursor seen acc h1 h2
    have hstop : ¬ seen.card < sc.results_wanted + sc.offset := by omega
    cases f2 with
    | zero => rfl
    | succ f2 =>
      show scrapeLoop cfg sc env 0 page cursor seen acc = _
      unfold scrapeLoop
      simp [hstop]
  | succ f1 ih =>
    intro f2 page cursor seen acc h1 h2
    cases f2 with
    | zero =>
      have hstop : ¬ seen.card < sc.results_wanted + sc.offset := by omega
      unfold scrapeLoop
      simp [hstop]
    | succ f2 =>
      by_cases hc : seen.card < sc.results_wanted + sc.offset
      · unfold scrapeLoop
        simp only [hc, if_true]
        rcases heqA : scrapePage cfg sc (env page) cursor seen with ⟨req, seenA, resA⟩
        obtain ⟨hsub, hpage⟩ := scrapePage_inv cfg sc (env page) cursor seen _ _ _ heqA
        cases resA with
        | error e => rfl
        | ok pr =>
          rcases pr with ⟨jobs, newCursor⟩
          obtain ⟨_, _, hjcard⟩ := hpage jobs newCursor rfl
          by_cases he : jobs.isEmpty
          · simp [he]
          · simp only [he, ite_false, if_neg, not_false_iff]
            apply ih
            · have hlen : 1 ≤ jobs.length := by
                cases jobs with
                | nil => simp at he
                | cons a l => simp
              omega
            · have hlen : 1 ≤ jobs.length := by
                cases jobs with
                | nil => simp at he
                | cons a l => simp
              omega
      · unfold scrapeLoop
        simp [hc]

/-! ### Concrete instances used by counterexamples and witnesses -/

/-- A configuration with no proxy, no CA bundle, UTC as the local
timezone, and inert external helpers. -/
def cfg0 : Cfg :=
  { baseUrl := "https://www.indeed.com", apiUrl := "https://apis.indeed.com/graphql",
    tzOffset := 0, caCert := none, fallbackProxies := none,
    markdownConverter := fun v => v, extractEmails := fun _ => JVal.null,
    getJobType := fun _ => JVal.null, getCompensation := fun _ => JVal.null,
    isJobRemote := fun _ _ => false, fetchWorld := fun _ => ⟨none, none⟩ }

/-- A search asking for one posting from the start of the results. -/
def sc0 : ScraperInput :=
  { search_term := none, location := none, distance := 50, hours_old := none,
    job_type := none, is_remote := false, easy_apply := false,
    results_wanted := 1, offset := 0, description_format := .html }

/-- A complete well-formed raw record with a null employer. -/
def rec1 : JVal :=
  .obj [("key", .str "j1"), ("title", .str "t"),
    ("description", .obj [("html", .str "d")]), ("attributes", .arr []),
    ("datePublished", .num 1700000000000), ("employer", .null),
    ("compensation", .null), ("location", .obj []), ("recruit", .null)]

/-- The posting that normalizing rec1 under cfg0 and sc0 produces. -/
def post1 : JobPost :=
  { id := "in-j1", title := .str "t", description := .str "d",
    company_name := .null, company_url := none, company_url_direct := .null,
    location := ⟨.null, .null, .null⟩, job_type := .null, compensation := .null,
    date_posted := "2023-11-14", job_url := "https://www.indeed.com/viewjob?jk=j1",
    job_url_direct := .null, emails := .null, is_remote := false,
    company_addresses := .null, company_industry := .null,
    company_num_employees := .null, company_revenue := .null,
    company_description := .null, company_logo := .null }

/-- An environment whose every page carries rec1 with status 200. -/
def env1 : Nat → PageHttp :=
  fun _ => { status := 200, results := [.obj [("job", rec1)]], nextCursor := none }

/-- An environment whose every page fails with status 500. -/
def env500 : Nat → PageHttp :=
  fun _ => { status := 500, results := [], nextCursor := none }

/-- A page with a non-2xx status below 400 (Not Modified) that still
carries a record, to separate non-2xx from not-ok. -/
def page304 : PageHttp :=
  { status := 304, results := [.obj [("job", rec1)]], nextCursor := none }

/-- A raw record holding only the key field. -/
def recBad : JVal := .obj [("key", .str "kX")]

/-- A raw record whose location key is present with a null value. -/
def recLocNull : JVal :=
  .obj [("key", .str "j6"), ("title", .str "t"),
    ("description", .obj [("html", .str "d")]), ("attributes", .arr []),
    ("datePublished", .num 1700000000000), ("employer", .null),
    ("compensation", .null), ("location", .null), ("recruit", .null)]

/-- A raw record with no employer key at all. -/
def recNoEmp : JVal :=
  .obj [("key", .str "j7"), ("title", .str "t"),
    ("description", .obj [("html", .str "d")]), ("attributes", .arr []),
    ("datePublished", .num 1700000000000),
    ("compensation", .null), ("location", .obj []), ("recruit", .null)]

/-- A configuration with a proxy whose browser-TLS fetch raises a
transport error while the proxied channel would have answered. -/
def cfg5c : Cfg :=
  { cfg0 with
    fallbackProxies := some "http://proxy:8080",
    fetchWorld := fun _ => ⟨none, some ⟨200, some "ACME"⟩⟩ }

/-- A configuration with a proxy whose browser-TLS fetch returns 403 and
whose proxied channel answers 200. -/
def cfg5w : Cfg :=
  { cfg0 with
    fallbackProxies := some "http://proxy:8080",
    fetchWorld := fun _ => ⟨some ⟨403, none⟩, some ⟨200, some "ACME"⟩⟩ }

/-- Search criteria with hours-old set to zero and easy-apply on. -/
def sc4c : ScraperInput := { sc0 with hours_old := some 0, easy_apply := true }

/-! ### String separation facts for the filter fragments -/

set_option maxRecDepth 8192 in
lemma dateFilterStr_ne_easy (n : Int) : dateFilterStr n ≠ easyApplyFilterStr := by
  intro h
  have hd : (dateFilterPre.data ++ ((toString n).data ++ dateFilterPost.data))[40]? =
      easyApplyFilterStr.data[40]? := by
    have h2 := congrArg (fun s => s.data[40]?) h
    simpa [dateFilterStr, String.data_append, List.append_assoc] using h2
  rw [List.getElem?_append_left (by decide : (40 : Nat) < dateFilterPre.data.length)] at hd
  exact absurd hd (by decide)

set_option maxRecDepth 8192 in
lemma dateFilterStr_ne_composite (n : Int) (ks : String) :
    dateFilterStr n ≠ compositeFilterStr ks := by
  intro h
  have hd : (dateFilterPre.data ++ ((toString n).data ++ dateFilterPost.data))[13]? =
      (compositeFilterPre.data ++ (ks.data ++ compositeFilterPost.data))[13]? := by
    have h2 := congrArg (fun s => s.data[13]?) h
    simpa [dateFilterStr, compositeFilterStr, String.data_append, List.append_assoc] using h2
  rw [List.getElem?_append_left (by decide : (13 : Nat) < dateFilterPre.data.length),
    List.getElem?_append_left (by decide : (13 : Nat) < compositeFilterPre.data.length)] at hd
  exact absurd hd (by decide)

lemma scrapeAccum_pairwise (cfg : Cfg) (sc : ScraperInput) (env : Nat → PageHttp)
    (seen : Finset String) (acc : List JobPost)
    (h : (scrapeAccum cfg sc env seen).2 = .ok acc) : List.Pairwise urlNe acc := by
  rcases heq : scrapeLoop cfg sc env (sc.results_wanted + sc.offset + 1) 1 none seen []
    with ⟨s1, r1⟩
  have hr : r1 = .ok acc := by
    have h2 : (scrapeAccum cfg sc env seen).2 = r1 := by
      unfold scrapeAccum
      rw [heq]
    rw [h2] at h
    exact h
  obtain ⟨_, hok⟩ := scrapeLoop_inv cfg sc env _ _ _ _ _ _ _ heq
  exact (hok acc hr (by simp) List.Pairwise.nil).2

/-! ### Claim theorems -/

/-- C1 (counterexample): the claim says any non-2xx response on the
GraphQL call produces an empty job list and terminates pagination, but
ok in the requests library means status below 400, so a 304 response
with a body is processed normally and yields a posting. -/
def pageJobsCount : Except PyErr (List JobPost × Option String) → Option Nat
  | .ok pr => some pr.1.length
  | .error _ => none

/-- C1 (counterexample): a status 304 page, which is not 2xx, yields one
posting and does not terminate with an empty list. -/
theorem c1_counterexample :
    page304.status = 304 ∧ ¬ (200 ≤ page304.status ∧ page304.status ≤ 299) ∧
    pageJobsCount (scrapePage cfg0 sc0 page304 none ∅).2.2 = some 1 :=
  ⟨rfl, by decide, rfl⟩

/-- C1 (amended): pagination continues while the seen count is below
results_wanted plus offset and stops on the first page that yields zero
new postings, whatever the returned cursor; any response with status 400
or above (not ok in the requests sense, rather than non-2xx) produces an
empty job list with a None cursor without raising, which then terminates
the session on the empty-page rule, with no retry. -/
theorem c1_pagination (cfg : Cfg) (sc : ScraperInput) (env : Nat → PageHttp)
    (page : PageHttp) (cursor : Option String) (seen : Finset String)
    (acc : List JobPost) (fuel pageIdx : Nat) :
    (400 ≤ page.status →
      scrapePage cfg sc page cursor seen = (graphqlRequest cfg, seen, .ok ([], none))) ∧
    (¬ seen.card < sc.results_wanted + sc.offset →
      scrapeLoop cfg sc env (fuel + 1) pageIdx cursor seen acc = (seen, .ok acc)) ∧
    (∀ (seenA : Finset String) (newCursor : Option String),
      seen.card < sc.results_wanted + sc.offset →
      scrapePage cfg sc (env pageIdx) cursor seen =
        (graphqlRequest cfg, seenA, .ok ([], newCursor)) →
      scrapeLoop cfg sc env (fuel + 1) pageIdx cursor seen acc = (seenA, .ok acc)) ∧
    (∀ (seenA : Finset String) (jobs : List JobPost) (newCursor : Option String),
      seen.card < sc.results_wanted + sc.offset →
      scrapePage cfg sc (env pageIdx) cursor seen =
        (graphqlRequest cfg, seenA, .ok (jobs, newCursor)) →
      jobs ≠ [] →
      scrapeLoop cfg sc env (fuel + 1) pageIdx cursor seen acc =
        scrapeLoop cfg sc env fuel (pageIdx + 1) newCursor seenA (acc ++ jobs)) := by
  refine ⟨?_, ?_, ?_, ?_⟩
  · intro h
    exact scrapePage_fail cfg sc page cursor seen h
  · intro h
    unfold scrapeLoop
    simp [h]
  · intro seenA newCursor hc heq
    unfold scrapeLoop
    simp [hc, heq]
  · intro seenA jobs newCursor hc heq hne
    have hje : jobs.isEmpty = false := by
      cases jobs with
      | nil => exact absurd rfl hne
      | cons a l => rfl
    conv_lhs => unfold scrapeLoop
    simp [hc, heq, hje]

/-- C1 (witness): the four behaviors at concrete inputs: a 500 page
gives the empty result without raising; a met target stops the loop; an
empty page stops the loop; a nonempty page appends and recurses. -/
theorem c1_pagination_witness :
    scrapePage cfg0 sc0 (env500 1) none ∅ = (graphqlRequest cfg0, ∅, .ok ([], none)) ∧
    scrapeLoop cfg0 sc0 env1 3 1 none (insert "x" ∅) [] = (insert "x" ∅, .ok []) ∧
    scrapeLoop cfg0 sc0 env500 1 1 none ∅ [] = (∅, .ok []) ∧
    scrapeLoop cfg0 sc0 env1 1 1 none ∅ [] =
      scrapeLoop cfg0 sc0 env1 0 2 none
        (insert "https://www.indeed.com/viewjob?jk=j1" ∅) [post1] :=
  ⟨(c1_pagination cfg0 sc0 env500 (env500 1) none ∅ [] 0 1).1 (by decide),
   (c1_pagination cfg0 sc0 env1 (env1 1) none (insert "x" ∅) [] 2 1).2.1 (by decide),
   (c1_pagination cfg0 sc0 env500 (env500 1) none ∅ [] 0 1).2.2.1 ∅ none (by decide) rfl,
   (c1_pagination cfg0 sc0 env1 (env1 1) none ∅ [] 0 1).2.2.2
     (insert "https://www.indeed.com/viewjob?jk=j1" ∅) [post1] none
     (by decide) rfl (by simp)⟩

/-- C2: normalizing the same raw record twice in one session yields a
posting the first time and nothing the second, by the URL-only
deduplication gate, and the accumulated postings of any session carry
pairwise distinct job URLs. -/
theorem c2_idempotent_dedup :
    (∀ (cfg : Cfg) (sc : ScraperInput) (seen seen1 : Finset String) (j : JVal)
      (p : JobPost),
      processJob cfg sc seen j = (seen1, .ok (some p)) →
      processJob cfg sc seen1 j = (seen1, .ok none)) ∧
    (∀ (cfg : Cfg) (sc : ScraperInput) (env : Nat → PageHttp) (seen : Finset String)
      (acc : List JobPost),
      (scrapeAccum cfg sc env seen).2 = .ok acc → List.Pairwise urlNe acc) := by
  constructor
  · intro cfg sc seen seen1 j p h
    obtain ⟨kv, hk, hpurl, hni, hs1⟩ := processJob_ok_some cfg sc seen seen1 j p h
    subst hs1
    exact processJob_seen_mem cfg sc _ j kv hk (Finset.mem_insert_self _ _)
  · intro cfg sc env seen acc h
    exact scrapeAccum_pairwise cfg sc env seen acc h

/-- C2 (witness): rec1 normalizes to a posting from the empty session
state and to nothing when normalized again, and the session of env1
yields a duplicate-free accumulation. -/
theorem c2_idempotent_dedup_witness :
    processJob cfg0 sc0 (insert "https://www.indeed.com/viewjob?jk=j1" ∅) rec1 =
      (insert "https://www.indeed.com/viewjob?jk=j1" ∅, .ok none) ∧
    List.Pairwise urlNe [post1] :=
  ⟨c2_idempotent_dedup.1 cfg0 sc0 ∅
      (insert "https://www.indeed.com/viewjob?jk=j1" ∅) rec1 post1 rfl,
   c2_idempotent_dedup.2 cfg0 sc0 env1 ∅ [post1] rfl⟩

/-- C3: when the session loop completes with accumulated postings acc,
the returned sequence is exactly the slice of acc from offset to offset
plus results_wanted, its length is at most results_wanted, and acc has
pairwise distinct job URLs and is accumulated in arrival order. -/
theorem c3_offset_slice (cfg : Cfg) (sc : ScraperInput) (env : Nat → PageHttp)
    (seen : Finset String) (acc : List JobPost)
    (h : (scrapeAccum cfg sc env seen).2 = .ok acc) :
    (scrape cfg sc env seen).2 =
      .ok ((acc.drop sc.offset).take sc.results_wanted) ∧
    ((acc.drop sc.offset).take sc.results_wanted).length ≤ sc.results_wanted ∧
    List.Pairwise urlNe acc := by
  refine ⟨?_, ?_, scrapeAccum_pairwise cfg sc env seen acc h⟩
  · show ((scrapeAccum cfg sc env seen).1,
      (scrapeAccum cfg sc env seen).2.map
        (fun l => (l.drop sc.offset).take sc.results_wanted)).2 = _
    rw [h]
    rfl
  · rw [List.length_take]
    exact Nat.min_le_left _ _

/-- C3 (witness): the session of env1 accumulates one posting and the
returned slice is that posting. -/
theorem c3_offset_slice_witness :
    (scrape cfg0 sc0 env1 ∅).2 = .ok [post1] ∧ [post1].length ≤ 1 := by
  have h := c3_offset_slice cfg0 sc0 env1 ∅ [post1] rfl
  exact ⟨h.1, h.2.1⟩

/-- C4 (counterexample): hours_old set to 0 is falsy in Python, so with
easy-apply on the emitted fragment is the easy-apply filter even though
hours_old is set, falsifying the claim as stated. -/
theorem c4_counterexample :
    sc4c.hours_old = some 0 ∧ buildFilters sc4c = easyApplyFilterStr :=
  ⟨rfl, rfl⟩

/-- C4 (amended): for every SearchCriteria whose hours_old is set to a
nonzero value, the emitted fragment is exactly the date-window filter
and is never the easy-apply form nor any composite job-type or remote
form, whatever the other fields hold. -/
theorem c4_hours_precedence (sc : ScraperInput) (n : Int)
    (hn : sc.hours_old = some n) (hnz : n ≠ 0) :
    buildFilters sc = dateFilterStr n ∧
    buildFilters sc ≠ easyApplyFilterStr ∧
    ∀ ks : String, buildFilters sc ≠ compositeFilterStr ks := by
  have hb : buildFilters sc = dateFilterStr n := by
    unfold buildFilters
    simp [truthyIntOpt, hn, hnz]
  refine ⟨hb, ?_, ?_⟩
  · rw [hb]
    exact dateFilterStr_ne_easy n
  · intro ks
    rw [hb]
    exact dateFilterStr_ne_composite n ks

/-- Search criteria with hours-old 24 and every other filter field set. -/
def sc4w : ScraperInput :=
  { sc0 with
    hours_old := some 24,
    easy_apply := true,
    is_remote := true,
    job_type := some .full_time }

/-- C4 (witness): with hours_old 24 and every other filter field set,
the fragment is the date filter and not the easy-apply filter. -/
theorem c4_hours_precedence_witness :
    buildFilters sc4w = dateFilterStr 24 ∧
    buildFilters sc4w ≠ easyApplyFilterStr :=
  ⟨(c4_hours_precedence sc4w 24 rfl (by decide)).1,
   (c4_hours_precedence sc4w 24 rfl (by decide)).2.1⟩

/-- C5 (counterexample): the claim says a transport-level failure of the
browser-fingerprint request with a proxy configured triggers exactly one
further proxied request, but a raised transport error jumps straight to
the except clause: only the one browser-TLS request is made and None is
returned, even though cfg5c has a proxy configured. -/
theorem c5_counterexample :
    cfg5c.fallbackProxies = some "http://proxy:8080" ∧
    fetchCompanyName cfg5c "u" = ([tierBRequest "u"], none) :=
  ⟨rfl, rfl⟩

/-- C5 (amended): the browser-fingerprint request always comes first;
when it returns a non-ok response and a proxy is configured, exactly one
further request is made through the proxied tier, carrying the
configured certificate-verification value; when it raises, or when no
proxy is configured, no second request is made; exhausting all
applicable tiers yields None rather than a fault. -/
theorem c5_fallback_tiers (cfg : Cfg) (url : String) :
    ((cfg.fetchWorld url).tls = none →
      fetchCompanyName cfg url = ([tierBRequest url], none)) ∧
    (∀ r : Resp, (cfg.fetchWorld url).tls = some r → r.ok = false →
      cfg.fallbackProxies ≠ none →
      (fetchCompanyName cfg url).1 = [tierBRequest url, tierCRequest cfg url]) ∧
    (∀ r : Resp, (cfg.fetchWorld url).tls = some r → r.ok = false →
      cfg.fallbackProxies = none →
      fetchCompanyName cfg url = ([tierBRequest url], none)) ∧
    (∀ r r2 : Resp, (cfg.fetchWorld url).tls = some r → r.ok = false →
      (cfg.fetchWorld url).proxied = some r2 → r2.ok = false →
      (fetchCompanyName cfg url).2 = none) ∧
    (fetchCompanyName cfg url).1.head? = some (tierBRequest url) ∧
    (tierCRequest cfg url).verifyArg = some (verifyArgOf cfg.caCert) := by
  refine ⟨?_, ?_, ?_, ?_, ?_, rfl⟩
  · intro htls
    simp [fetchCompanyName, htls]
  · intro r htls hok hpx
    cases hpxs : cfg.fallbackProxies with
    | none => exact absurd hpxs hpx
    | some p =>
      cases hpr : (cfg.fetchWorld url).proxied with
      | none => simp [fetchCompanyName, htls, hok, hpxs, hpr]
      | some r2 =>
        by_cases hok2 : r2.ok <;>
          simp [fetchCompanyName, htls, hok, hpxs, hpr, hok2]
  · intro r htls hok hpxs
    simp [fetchCompanyName, htls, hok, hpxs]
  · intro r r2 htls hok hpr hok2
    cases hpxs : cfg.fallbackProxies with
    | none => simp [fetchCompanyName, htls, hok, hpxs]
    | some p => simp [fetchCompanyName, htls, hok, hpxs, hpr, hok2]
  · cases htls : (cfg.fetchWorld url).tls with
    | none => simp [fetchCompanyName, htls]
    | some r =>
      by_cases hok : r.ok
      · simp [fetchCompanyName, htls, hok]
      · cases hpxs : cfg.fallbackProxies with
        | none => simp [fetchCompanyName, htls, hok, hpxs]
        | some p =>
          cases hpr : (cfg.fetchWorld url).proxied with
          | none => simp [fetchCompanyName, htls, hok, hpxs, hpr]
          | some r2 =>
            by_cases hok2 : r2.ok <;>
              simp [fetchCompanyName, htls, hok, hpxs, hpr, hok2]

/-- C5 (witness): with a configured proxy and a 403 browser-TLS
response, the trace is exactly the browser-TLS request followed by the
proxied request. -/
theorem c5_fallback_tiers_witness :
    (fetchCompanyName cfg5w "u").1 = [tierBRequest "u", tierCRequest cfg5w "u"] :=
  (c5_fallback_tiers cfg5w "u").2.1 ⟨403, none⟩ rfl rfl (by decide)

/-- C6 (code bug): a raw record whose location key holds null makes the
normalizer raise AttributeError, because the one-level get with an
empty-dict default returns the null itself, and the second get is then
called on None; a record with no employer key at all raises KeyError at
the bracket access of line 271.  In both cases the URL has already been
recorded.  The spec and the claim require such records to normalize with
absent fields and never fault. -/
theorem c6_missing_nested_faults :
    (processJob cfg0 sc0 ∅ recLocNull).2 = .error .attributeError ∧
    (processJob cfg0 sc0 ∅ recLocNull).1 =
      insert "https://www.indeed.com/viewjob?jk=j6" ∅ ∧
    (processJob cfg0 sc0 ∅ recNoEmp).2 = .error (.keyError "employer") :=
  ⟨rfl, rfl, rfl⟩

/-- C7 (counterexample): the seen-URL set persists on the scraper across
scrape calls: against the same provider environment the first scrape
returns one posting and leaves one URL in the set, and a second scrape
starting from that state returns zero postings (the URL suppresses the
posting and already meets the loop target) with the set unchanged. -/
def scrapeResultLen : Except PyErr (List JobPost) → Option Nat
  | .ok l => some l.length
  | .error _ => none

/-- C7 (counterexample): a second scrape on the same scraper is starved
by the URLs of the first. -/
theorem c7_counterexample :
    scrapeResultLen (scrape cfg0 sc0 env1 initSeenUrls).2 = some 1 ∧
    (scrape cfg0 sc0 env1 initSeenUrls).1.card = 1 ∧
    scrapeResultLen
      (scrape cfg0 sc0 env1 ((scrape cfg0 sc0 env1 initSeenUrls).1)).2 = some 0 ∧
    (scrape cfg0 sc0 env1 ((scrape cfg0 sc0 env1 initSeenUrls).1)).1 =
      (scrape cfg0 sc0 env1 initSeenUrls).1 :=
  ⟨rfl, rfl, rfl, rfl⟩

/-- C7 (amended): the seen-URL set is created empty at scraper
construction and persists across scrape invocations on the same scraper,
so URLs accepted earlier suppress postings and count toward the loop
target of later calls; within and across sessions the set only grows and
never shrinks. -/
theorem c7_seen_scope (cfg : Cfg) (sc : ScraperInput) (env : Nat → PageHttp)
    (seen : Finset String) :
    initSeenUrls = ∅ ∧ seen ⊆ (scrape cfg sc env seen).1 := by
  refine ⟨rfl, ?_⟩
  rcases heq : scrapeLoop cfg sc env (sc.results_wanted + sc.offset + 1) 1 none seen []
    with ⟨s1, r1⟩
  have hsub := (scrapeLoop_inv cfg sc env _ _ _ _ _ _ _ heq).1
  unfold scrape scrapeAccum
  rw [heq]
  exact hsub

/-- C8 (counterexample): the browser-fingerprint fallback GET is issued
by the pipeline with no timeout argument at all, falsifying the claim
that every outbound request carries a finite bounded timeout. -/
theorem c8_counterexample :
    (fetchCompanyName cfg0 "https://www.indeed.com/viewjob?jk=x").1 =
      [tierBRequest "https://www.indeed.com/viewjob?jk=x"] ∧
    (tierBRequest "https://www.indeed.com/viewjob?jk=x").timeout = none :=
  ⟨rfl, rfl⟩

/-- C8 (amended): the GraphQL POST and the proxied fallback GET each
carry an explicit 10 second timeout, while the browser-fingerprint
fallback GET is issued with no per-request timeout argument; every
request the company-name fallback emits is one of those two fallback
forms. -/
theorem c8_request_timeouts (cfg : Cfg) (url : String) :
    (graphqlRequest cfg).timeout = some 10 ∧
    (tierCRequest cfg url).timeout = some 10 ∧
    (tierBRequest url).timeout = none ∧
    ∀ req ∈ (fetchCompanyName cfg url).1,
      req = tierBRequest url ∨ req = tierCRequest cfg url := by
  refine ⟨rfl, rfl, rfl, ?_⟩
  intro req hreq
  cases htls : (cfg.fetchWorld url).tls with
  | none =>
    simp [fetchCompanyName, htls] at hreq
    exact Or.inl hreq
  | some r =>
    by_cases hok : r.ok
    · simp [fetchCompanyName, htls, hok] at hreq
      exact Or.inl hreq
    · cases hpxs : cfg.fallbackProxies with
      | none =>
        simp [fetchCompanyName, htls, hok, hpxs] at hreq
        exact Or.inl hreq
      | some p =>
        cases hpr : (cfg.fetchWorld url).proxied with
        | none =>
          simp [fetchCompanyName, htls, hok, hpxs, hpr] at hreq
          exact hreq
        | some r2 =>
          by_cases hok2 : r2.ok
          · simp [fetchCompanyName, htls, hok, hpxs, hpr, hok2] at hreq
            exact hreq
          · simp [fetchCompanyName, htls, hok, hpxs, hpr, hok2] at hreq
            exact hreq

/-- C8 (witness): the browser-TLS request of a concrete fallback trace
is one of the two fallback request forms. -/
theorem c8_request_timeouts_witness :
    tierBRequest "u" = tierBRequest "u" ∨ tierBRequest "u" = tierCRequest cfg0 "u" :=
  (c8_request_timeouts cfg0 "u").2.2.2 (tierBRequest "u") (by decide)

/-- Shape of a strftime Y-m-d rendering: four digits, a dash, two
digits, a dash, two digits. -/
def isYmdB (s : String) : Bool :=
  match s.data with
  | [a, b, c, d, e, f, g, h, i, k] =>
    a.isDigit && b.isDigit && c.isDigit && d.isDigit && (e == '-') &&
      f.isDigit && g.isDigit && (h == '-') && i.isDigit && k.isDigit
  | _ => false

lemma fromtimestampDate_17e (tz : Int) (h1 : -50400 ≤ tz) (h2 : tz ≤ 50400) :
    fromtimestampDate tz 1700000000000 = "2023-11-14" ∨
    fromtimestampDate tz 1700000000000 = "2023-11-15" := by
  have hfd : daysFromMillis tz 1700000000000 = 19675 ∨
      daysFromMillis tz 1700000000000 = 19676 := by
    unfold daysFromMillis
    rw [Int.fdiv_eq_ediv _ (by norm_num)]
    omega
  rcases hfd with hq | hq
  · left
    simp only [fromtimestampDate, hq]
    rfl
  · right
    simp only [fromtimestampDate, hq]
    rfl

/-- C9: the posting date is the datePublished epoch milliseconds of the
record pushed through the civil-date rendering; for the canonical value
1700000000000 the rendered string is one fixed Y-m-d day (depending only
on the local timezone of the session, within the real offset range), of
the Y-m-d shape, hence deterministic and stable across repeated calls on
the same record in the same environment. -/
theorem c9_date_derivation (tz : Int) (j : JVal) (ms : Int)
    (h : jget j "datePublished" = .ok (.num ms)) :
    datePostedOf tz j = .ok (fromtimestampDate tz ms) ∧
    (ms = 1700000000000 → -50400 ≤ tz → tz ≤ 50400 →
      (fromtimestampDate tz ms = "2023-11-14" ∨
        fromtimestampDate tz ms = "2023-11-15") ∧
      isYmdB (fromtimestampDate tz ms) = true) := by
  constructor
  · unfold datePostedOf
    rw [h]
    rfl
  · intro hms hz1 hz2
    subst hms
    refine ⟨fromtimestampDate_17e tz hz1 hz2, ?_⟩
    rcases fromtimestampDate_17e tz hz1 hz2 with hq | hq <;> rw [hq] <;> rfl

/-- C9 (witness): rec1 carries datePublished 1700000000000 and at UTC
normalizes to the 2023-11-14 string of Y-m-d shape. -/
theorem c9_date_derivation_witness :
    datePostedOf 0 rec1 = .ok (fromtimestampDate 0 1700000000000) ∧
    (fromtimestampDate 0 1700000000000 = "2023-11-14" ∨
      fromtimestampDate 0 1700000000000 = "2023-11-15") ∧
    isYmdB (fromtimestampDate 0 1700000000000) = true :=
  ⟨(c9_date_derivation 0 rec1 1700000000000 rfl).1,
   ((c9_date_derivation 0 rec1 1700000000000 rfl).2 rfl (by decide) (by decide)).1,
   ((c9_date_derivation 0 rec1 1700000000000 rfl).2 rfl (by decide) (by decide)).2⟩

/-- C10: once a record whose canonical URL is new has been accepted, the
URL is in the seen set whatever happens afterwards: the final seen set
of the normalizer is exactly the old set plus the URL, in the error
outcome as much as in the success outcome (no rollback), and processing
the same record again is skipped for the rest of the session. -/
theorem c10_url_added_first (cfg : Cfg) (sc : ScraperInput) (seen : Finset String)
    (j kv : JVal) (hk : jget j "key" = .ok kv)
    (hni : mkJobUrl cfg kv ∉ seen) :
    (processJob cfg sc seen j).1 = insert (mkJobUrl cfg kv) seen ∧
    processJob cfg sc (insert (mkJobUrl cfg kv) seen) j =
      (insert (mkJobUrl cfg kv) seen, .ok none) :=
  ⟨processJob_fst_new cfg sc seen j kv hk hni,
   processJob_seen_mem cfg sc _ j kv hk (Finset.mem_insert_self _ _)⟩

/-- C10 (witness): recBad holds only its key, so normalization raises on
the description read, yet its URL lands in the seen set and a second
pass over the record is skipped. -/
theorem c10_url_added_first_witness :
    (processJob cfg0 sc0 ∅ recBad).1 = insert (mkJobUrl cfg0 (.str "kX")) ∅ ∧
    processJob cfg0 sc0 (insert (mkJobUrl cfg0 (.str "kX")) ∅) recBad =
      (insert (mkJobUrl cfg0 (.str "kX")) ∅, .ok none) :=
  c10_url_added_first cfg0 sc0 ∅ recBad (.str "kX") rfl (by decide)

end JobspyIndeed
